import Mathlib

/-!
Passthrough file system adapter.

A shallow embedding of `examples/passthrough/passthrough.go`.

* Go's `int` and `uintptr` are taken at their 64-bit width; `uint64` values are
  natural numbers below `2 ^ 64`, `int` values are integers in
  `[-2 ^ 63, 2 ^ 63)`, conversions wrap as Go's do.
* Every operation of `Ptfs` is a function of the native environment
  (`Native`: what each native call answers) and returns a `Run`: the native
  calls it issued, in order, and what it returned, or the run-time panic that
  ended it.
* `defer Trace(...)` is diagnostic instrumentation and is left out.
-/

namespace Passthrough

/-! ## Machine integers -/

/-- The conversion `int(x)` of an unsigned 64-bit value: reinterpretation in two's complement. -/
def toInt64 (n : Nat) : Int :=
  if n % 2 ^ 64 < 2 ^ 63 then ((n % 2 ^ 64 : Nat) : Int)
  else ((n % 2 ^ 64 : Nat) : Int) - 2 ^ 64

/-- The conversion `uint64(x)` of a signed value: reduction modulo `2 ^ 64`. -/
def toUint64 (i : Int) : Nat := (i % 2 ^ 64).toNat

/-- An arithmetic result brought back into the range of `int`. -/
def wrapInt (i : Int) : Int := toInt64 (toUint64 i)

/-- The value `^uint64(0)`: all 64 bits set. -/
def sentinel : Nat := 2 ^ 64 - 1

/-! ## Errors -/

/-- Go `error` values by dynamic type: `syscall.Errno` (a `uintptr`), and the
wrappers `*os.PathError` and `*os.SyscallError` that package `os` returns. -/
inductive GoError where
  | Errno (code : Nat)
  | PathError (op : String) (path : String) (err : GoError)
  | SyscallError (call : String) (err : GoError)
  deriving DecidableEq, Repr

/-- Run-time panics the source can raise. -/
inductive Panic where
  | typeAssertion
  | indexOutOfRange
  deriving DecidableEq, Repr

/-- The platform's "no such file or directory" code. -/
def syscall.ENOENT : Nat := 2

/-- The function `errno`: `0` for `nil`, otherwise `-int(err.(syscall.Errno))`; the type
assertion panics when the dynamic type of `err` is not `syscall.Errno`. -/
def errno (err : Option GoError) : Except Panic Int :=
  match err with
  | some e =>
    match e with
    | GoError.Errno code => Except.ok (wrapInt (-(toInt64 code)))
    | _ => Except.error Panic.typeAssertion
  | none => Except.ok 0

/-- Package `syscall` returns `nil` or a `syscall.Errno`: the error value of a native call
that answered with the code `e`. -/
def asError (e : Option Nat) : Option GoError := e.map GoError.Errno

/-! ## Path resolution: `filepath.Join` (Unix) -/

/-- The elements of a path between its separators. -/
def splitSep : List Char → List (List Char)
  | [] => [[]]
  | c :: cs =>
    if c = '/' then [] :: splitSep cs
    else
      match splitSep cs with
      | [] => [[c]]
      | x :: xs => (c :: x) :: xs

/-- One element of `filepath.Clean`, the output kept as a stack of elements (last first):
empty and `.` elements are dropped, `..` removes the last real element when there is one,
is dropped at the root, and is kept in a leading run of `..` of a relative path. -/
def cleanStep (rooted : Bool) (out : List (List Char)) (el : List Char) : List (List Char) :=
  if el = [] ∨ el = ['.'] then out
  else if el = ['.', '.'] then
    match out with
    | [] => if rooted then [] else [el]
    | top :: rest => if top = ['.', '.'] then el :: out else rest
  else el :: out

/-- The function `filepath.Clean`. -/
def filepath.Clean (path : List Char) : List Char :=
  if path = [] then ['.']
  else
    let rooted := path.head? = some '/'
    let out := (splitSep path).foldl (cleanStep rooted) []
    let body := List.intercalate ['/'] out.reverse
    if rooted then '/' :: body
    else if body = [] then ['.'] else body

/-- The function `filepath.Join` of two elements: leading empty elements are skipped, the
rest joined with the separator and cleaned. -/
def filepath.Join (a b : String) : String :=
  if a.data ≠ [] then String.mk (filepath.Clean (a.data ++ '/' :: b.data))
  else if b.data ≠ [] then String.mk (filepath.Clean b.data)
  else ""

/-! ## Data crossing the boundary -/

/-- The type `fuse.Timespec`: seconds and nanoseconds. -/
structure fuse.Timespec where
  Sec : Int
  Nsec : Int
  deriving DecidableEq, Repr

/-- The type `syscall.Timespec`: seconds and nanoseconds. -/
structure syscall.Timespec where
  Sec : Int
  Nsec : Int
  deriving DecidableEq, Repr

/-- Modelled from the spec: the native file-status structure `syscall.Stat_t` is declared
outside the sources at hand; its fields are those the spec lists. -/
structure syscall.Stat_t where
  Dev : Nat
  Ino : Nat
  Mode : Nat
  Nlink : Nat
  Uid : Nat
  Gid : Nat
  Rdev : Nat
  Size : Int
  Blksize : Int
  Blocks : Int
  Atim : syscall.Timespec
  Mtim : syscall.Timespec
  Ctim : syscall.Timespec
  deriving DecidableEq, Repr

/-- Modelled from the spec: the cross-platform file-status structure `fuse.Stat_t` is
declared outside the sources at hand; its fields are those the spec lists. -/
structure fuse.Stat_t where
  Dev : Nat
  Ino : Nat
  Mode : Nat
  Nlink : Nat
  Uid : Nat
  Gid : Nat
  Rdev : Nat
  Size : Int
  Blksize : Int
  Blocks : Int
  Atim : fuse.Timespec
  Mtim : fuse.Timespec
  Ctim : fuse.Timespec
  deriving DecidableEq, Repr

/-- Modelled from the spec: the native filesystem-status structure `syscall.Statfs_t`, with
the fields the spec lists. -/
structure syscall.Statfs_t where
  Bsize : Nat
  Blocks : Nat
  Bfree : Nat
  Bavail : Nat
  Files : Nat
  Ffree : Nat
  Namemax : Nat
  deriving DecidableEq, Repr

/-- Modelled from the spec: the cross-platform filesystem-status structure `fuse.Statfs_t`,
with the fields the spec lists. -/
structure fuse.Statfs_t where
  Bsize : Nat
  Blocks : Nat
  Bfree : Nat
  Bavail : Nat
  Files : Nat
  Ffree : Nat
  Namemax : Nat
  deriving DecidableEq, Repr

/-- Modelled from the spec: `copyFusestatFromGostat` is defined outside the sources at
hand; the spec has it copy field by field with no transformation. -/
def copyFusestatFromGostat (_dst : fuse.Stat_t) (src : syscall.Stat_t) : fuse.Stat_t :=
  { Dev := src.Dev, Ino := src.Ino, Mode := src.Mode, Nlink := src.Nlink, Uid := src.Uid,
    Gid := src.Gid, Rdev := src.Rdev, Size := src.Size, Blksize := src.Blksize,
    Blocks := src.Blocks,
    Atim := { Sec := src.Atim.Sec, Nsec := src.Atim.Nsec },
    Mtim := { Sec := src.Mtim.Sec, Nsec := src.Mtim.Nsec },
    Ctim := { Sec := src.Ctim.Sec, Nsec := src.Ctim.Nsec } }

/-- Modelled from the spec: `copyFusestatfsFromGostatfs` is defined outside the sources at
hand; the spec has it copy field by field with no transformation. -/
def copyFusestatfsFromGostatfs (_dst : fuse.Statfs_t) (src : syscall.Statfs_t) : fuse.Statfs_t :=
  { Bsize := src.Bsize, Blocks := src.Blocks, Bfree := src.Bfree, Bavail := src.Bavail,
    Files := src.Files, Ffree := src.Ffree, Namemax := src.Namemax }

/-- An open `*os.File`. -/
structure File where
  name : String
  fd : Int
  deriving DecidableEq, Repr

/-! ## Open flags (linux/amd64 values of package `syscall`) -/

/-- The flag `syscall.O_RDONLY`. -/
def syscall.O_RDONLY : Nat := 0x0
/-- The flag `syscall.O_WRONLY`. -/
def syscall.O_WRONLY : Nat := 0x1
/-- The flag `syscall.O_CREAT`. -/
def syscall.O_CREAT : Nat := 0x40
/-- The flag `syscall.O_TRUNC`. -/
def syscall.O_TRUNC : Nat := 0x200
/-- The flag `syscall.O_DIRECTORY`. -/
def syscall.O_DIRECTORY : Nat := 0x10000

/-! ## The native environment -/

/-- A native call with its arguments, as the adapter issues it. -/
inductive Call where
  | Statfs (path : String)
  | Mknod (path : String) (mode : Nat) (dev : Int)
  | Mkdir (path : String) (mode : Nat)
  | Unlink (path : String)
  | Rmdir (path : String)
  | Link (oldpath : String) (newpath : String)
  | Symlink (target : String) (newpath : String)
  | Rename (oldpath : String) (newpath : String)
  | Chmod (path : String) (mode : Nat)
  | Chown (path : String) (uid : Int) (gid : Int)
  | UtimesNano (path : String) (ts : List syscall.Timespec)
  | Access (path : String) (mask : Nat)
  | Open (path : String) (flags : Int) (perm : Nat)
  | Stat (path : String)
  | Fstat (fd : Int)
  | Truncate (path : String) (size : Int)
  | Ftruncate (fd : Int) (size : Int)
  | Pread (fd : Int) (buff : List Nat) (ofst : Int)
  | Pwrite (fd : Int) (buff : List Nat) (ofst : Int)
  | Close (fd : Int)
  | Fsync (fd : Int)
  | OsOpen (name : String)
  | Readdirnames (file : File) (n : Int)
  | FileClose (file : File)
  deriving DecidableEq, Repr

/-- What the native layer answers to each call. The functions of package `syscall` answer
with `none` (a `nil` error) or the code of a `syscall.Errno`; `os.Open` and
`(*os.File).Readdirnames` answer with an `error` of package `os`. -/
structure Native where
  Statfs : String → syscall.Statfs_t × Option Nat
  Mknod : String → Nat → Int → Option Nat
  Mkdir : String → Nat → Option Nat
  Unlink : String → Option Nat
  Rmdir : String → Option Nat
  Link : String → String → Option Nat
  Symlink : String → String → Option Nat
  Rename : String → String → Option Nat
  Chmod : String → Nat → Option Nat
  Chown : String → Int → Int → Option Nat
  UtimesNano : String → List syscall.Timespec → Option Nat
  Access : String → Nat → Option Nat
  Open : String → Int → Nat → Int × Option Nat
  Stat : String → syscall.Stat_t × Option Nat
  Fstat : Int → syscall.Stat_t × Option Nat
  Truncate : String → Int → Option Nat
  Ftruncate : Int → Int → Option Nat
  Pread : Int → List Nat → Int → (Int × List Nat) × Option Nat
  Pwrite : Int → List Nat → Int → Int × Option Nat
  Close : Int → Option Nat
  Fsync : Int → Option Nat
  OsOpen : String → Except GoError File
  Readdirnames : File → Int → List String × Option GoError

/-- The outcome of one operation: the native calls issued, in order, and the value
returned, or the panic that ended the operation. -/
structure Run (α : Type) where
  calls : List Call
  ret : Except Panic α

/-- The adapter instance: the root directory. -/
structure Ptfs where
  root : String
  deriving DecidableEq, Repr

/-! ## The operations of `Ptfs` -/

/-- The operation `Statfs`. -/
def Ptfs.Statfs (env : Native) (self : Ptfs) (path : String) (stat : fuse.Statfs_t) :
    Run (Int × fuse.Statfs_t) :=
  let path := filepath.Join self.root path
  let r := env.Statfs path
  { calls := [Call.Statfs path],
    ret := (errno (asError r.2)).map fun errc => (errc, copyFusestatfsFromGostatfs stat r.1) }

/-- The operation `Mknod`. -/
def Ptfs.Mknod (env : Native) (self : Ptfs) (path : String) (mode : Nat) (dev : Nat) : Run Int :=
  let path := filepath.Join self.root path
  { calls := [Call.Mknod path mode (toInt64 dev)],
    ret := errno (asError (env.Mknod path mode (toInt64 dev))) }

/-- The operation `Mkdir`. -/
def Ptfs.Mkdir (env : Native) (self : Ptfs) (path : String) (mode : Nat) : Run Int :=
  let path := filepath.Join self.root path
  { calls := [Call.Mkdir path mode], ret := errno (asError (env.Mkdir path mode)) }

/-- The operation `Unlink`. -/
def Ptfs.Unlink (env : Native) (self : Ptfs) (path : String) : Run Int :=
  let path := filepath.Join self.root path
  { calls := [Call.Unlink path], ret := errno (asError (env.Unlink path)) }

/-- The operation `Rmdir`. -/
def Ptfs.Rmdir (env : Native) (self : Ptfs) (path : String) : Run Int :=
  let path := filepath.Join self.root path
  { calls := [Call.Rmdir path], ret := errno (asError (env.Rmdir path)) }

/-- The operation `Link`. -/
def Ptfs.Link (env : Native) (self : Ptfs) (oldpath newpath : String) : Run Int :=
  let oldpath := filepath.Join self.root oldpath
  let newpath := filepath.Join self.root newpath
  { calls := [Call.Link oldpath newpath], ret := errno (asError (env.Link oldpath newpath)) }

/-- The operation `Symlink`. -/
def Ptfs.Symlink (env : Native) (self : Ptfs) (target newpath : String) : Run Int :=
  let target := filepath.Join self.root target
  let newpath := filepath.Join self.root newpath
  { calls := [Call.Symlink target newpath], ret := errno (asError (env.Symlink target newpath)) }

/-- The operation `Rename`. -/
def Ptfs.Rename (env : Native) (self : Ptfs) (oldpath newpath : String) : Run Int :=
  let oldpath := filepath.Join self.root oldpath
  let newpath := filepath.Join self.root newpath
  { calls := [Call.Rename oldpath newpath], ret := errno (asError (env.Rename oldpath newpath)) }

/-- The operation `Chmod`. -/
def Ptfs.Chmod (env : Native) (self : Ptfs) (path : String) (mode : Nat) : Run Int :=
  let path := filepath.Join self.root path
  { calls := [Call.Chmod path mode], ret := errno (asError (env.Chmod path mode)) }

/-- The operation `Chown`; `uid` and `gid` are 32-bit unsigned values, `int(uid)` keeps them. -/
def Ptfs.Chown (env : Native) (self : Ptfs) (path : String) (uid gid : Nat) : Run Int :=
  let path := filepath.Join self.root path
  let u : Int := ((uid % 2 ^ 32 : Nat) : Int)
  let g : Int := ((gid % 2 ^ 32 : Nat) : Int)
  { calls := [Call.Chown path u g], ret := errno (asError (env.Chown path u g)) }

/-- The operation `Utimens`: `tmsp1[0]` and `tmsp1[1]` are read (a panic when absent) and
copied field by field into a two-element array handed to `syscall.UtimesNano`. -/
def Ptfs.Utimens (env : Native) (self : Ptfs) (path : String) (tmsp1 : List fuse.Timespec) :
    Run Int :=
  let path := filepath.Join self.root path
  match tmsp1[0]? with
  | none => { calls := [], ret := Except.error Panic.indexOutOfRange }
  | some t0 =>
    match tmsp1[1]? with
    | none => { calls := [], ret := Except.error Panic.indexOutOfRange }
    | some t1 =>
      let tmsp : List syscall.Timespec :=
        [{ Sec := t0.Sec, Nsec := t0.Nsec }, { Sec := t1.Sec, Nsec := t1.Nsec }]
      { calls := [Call.UtimesNano path tmsp], ret := errno (asError (env.UtimesNano path tmsp)) }

/-- The operation `Access`. -/
def Ptfs.Access (env : Native) (self : Ptfs) (path : String) (mask : Nat) : Run Int :=
  let path := filepath.Join self.root path
  { calls := [Call.Access path mask], ret := errno (asError (env.Access path mask)) }

/-- The operation `Create`: result code and handle. -/
def Ptfs.Create (env : Native) (self : Ptfs) (path : String) (mode : Nat) : Run (Int × Nat) :=
  let path := filepath.Join self.root path
  let flags : Int := ((syscall.O_WRONLY ||| syscall.O_CREAT ||| syscall.O_TRUNC : Nat) : Int)
  let r := env.Open path flags mode
  { calls := [Call.Open path flags mode],
    ret :=
      match r.2 with
      | some e => (errno (asError (some e))).map fun errc => (errc, sentinel)
      | none => Except.ok (0, toUint64 r.1) }

/-- The operation `Open`: result code and handle. -/
def Ptfs.Open (env : Native) (self : Ptfs) (path : String) (flags : Int) : Run (Int × Nat) :=
  let path := filepath.Join self.root path
  let r := env.Open path flags 0
  { calls := [Call.Open path flags 0],
    ret :=
      match r.2 with
      | some e => (errno (asError (some e))).map fun errc => (errc, sentinel)
      | none => Except.ok (0, toUint64 r.1) }

/-- The operation `Getattr`: result code and the filled status structure. -/
def Ptfs.Getattr (env : Native) (self : Ptfs) (path : String) (stat : fuse.Stat_t) (fh : Nat) :
    Run (Int × fuse.Stat_t) :=
  if sentinel = fh then
    let path := filepath.Join self.root path
    let r := env.Stat path
    { calls := [Call.Stat path],
      ret := (errno (asError r.2)).map fun errc => (errc, copyFusestatFromGostat stat r.1) }
  else
    let r := env.Fstat (toInt64 fh)
    { calls := [Call.Fstat (toInt64 fh)],
      ret := (errno (asError r.2)).map fun errc => (errc, copyFusestatFromGostat stat r.1) }

/-- The operation `Truncate`. -/
def Ptfs.Truncate (env : Native) (self : Ptfs) (path : String) (size : Int) (fh : Nat) : Run Int :=
  if sentinel = fh then
    let path := filepath.Join self.root path
    { calls := [Call.Truncate path size], ret := errno (asError (env.Truncate path size)) }
  else
    { calls := [Call.Ftruncate (toInt64 fh) size],
      ret := errno (asError (env.Ftruncate (toInt64 fh) size)) }

/-- The operation `Read`: the result and the buffer after the call. -/
def Ptfs.Read (env : Native) (_self : Ptfs) (_path : String) (buff : List Nat) (ofst : Int)
    (fh : Nat) : Run (Int × List Nat) :=
  let r := env.Pread (toInt64 fh) buff ofst
  { calls := [Call.Pread (toInt64 fh) buff ofst],
    ret :=
      match r.2 with
      | some e => (errno (asError (some e))).map fun n => (n, r.1.2)
      | none => Except.ok (r.1.1, r.1.2) }

/-- The operation `Write`. -/
def Ptfs.Write (env : Native) (_self : Ptfs) (_path : String) (buff : List Nat) (ofst : Int)
    (fh : Nat) : Run Int :=
  let r := env.Pwrite (toInt64 fh) buff ofst
  { calls := [Call.Pwrite (toInt64 fh) buff ofst],
    ret :=
      match r.2 with
      | some e => errno (asError (some e))
      | none => Except.ok r.1 }

/-- The operation `Release`. -/
def Ptfs.Release (env : Native) (_self : Ptfs) (_path : String) (fh : Nat) : Run Int :=
  { calls := [Call.Close (toInt64 fh)], ret := errno (asError (env.Close (toInt64 fh))) }

/-- The operation `Fsync`. -/
def Ptfs.Fsync (env : Native) (_self : Ptfs) (_path : String) (_datasync : Bool) (fh : Nat) :
    Run Int :=
  { calls := [Call.Fsync (toInt64 fh)], ret := errno (asError (env.Fsync (toInt64 fh))) }

/-- The operation `Opendir`: result code and handle. -/
def Ptfs.Opendir (env : Native) (self : Ptfs) (path : String) : Run (Int × Nat) :=
  let path := filepath.Join self.root path
  let flags : Int := ((syscall.O_RDONLY ||| syscall.O_DIRECTORY : Nat) : Int)
  let r := env.Open path flags 0
  { calls := [Call.Open path flags 0],
    ret :=
      match r.2 with
      | some e => (errno (asError (some e))).map fun errc => (errc, sentinel)
      | none => Except.ok (0, toUint64 r.1) }

/-- One invocation of the callback of `Readdir`: its three arguments and its answer. -/
structure FillCall where
  name : String
  stat : Option fuse.Stat_t
  ofst : Int
  more : Bool
  deriving DecidableEq, Repr

/-- The loop of `Readdir` over the names: the callback, a closure over a state of type `σ`,
is invoked with `(name, nil, 0)`; the loop breaks after the first answer `false`. -/
def fillLoop {σ : Type} (fill : σ → String → Option fuse.Stat_t → Int → Bool × σ) :
    List String → σ → List FillCall × σ
  | [], s => ([], s)
  | name :: rest, s =>
    let r := fill s name none 0
    if !r.1 then ([{ name := name, stat := none, ofst := 0, more := r.1 }], r.2)
    else
      let t := fillLoop fill rest r.2
      ({ name := name, stat := none, ofst := 0, more := r.1 } :: t.1, t.2)

/-- The outcome of `Readdir`: native calls, callback invocations in order, the state of the
callback afterwards, and the result code or panic. -/
structure ReaddirRun (σ : Type) where
  calls : List Call
  fills : List FillCall
  state : σ
  ret : Except Panic Int

/-- The operation `Readdir`: `os.Open(path)` on the path as received, `Readdirnames(0)`,
the callback loop, result `0`; both failures return `errno(e)`; the deferred `file.Close()`
runs on every exit after a successful open. -/
def Ptfs.Readdir {σ : Type} (env : Native) (_self : Ptfs) (path : String)
    (fill : σ → String → Option fuse.Stat_t → Int → Bool × σ) (s : σ) (_ofst : Int) (_fh : Nat) :
    ReaddirRun σ :=
  match env.OsOpen path with
  | Except.error e => { calls := [Call.OsOpen path], fills := [], state := s, ret := errno (some e) }
  | Except.ok file =>
    let r := env.Readdirnames file 0
    match r.2 with
    | some e =>
      { calls := [Call.OsOpen path, Call.Readdirnames file 0, Call.FileClose file],
        fills := [], state := s, ret := errno (some e) }
    | none =>
      let t := fillLoop fill r.1 s
      { calls := [Call.OsOpen path, Call.Readdirnames file 0, Call.FileClose file],
        fills := t.1, state := t.2, ret := Except.ok 0 }

/-- The operation `Releasedir`. -/
def Ptfs.Releasedir (env : Native) (_self : Ptfs) (_path : String) (fh : Nat) : Run Int :=
  { calls := [Call.Close (toInt64 fh)], ret := errno (asError (env.Close (toInt64 fh))) }

/-! ## Two native environments to evaluate the operations on -/

/-- A status structure with every field zero, as `syscall.Stat_t{}`. -/
def zeroStat : syscall.Stat_t :=
  { Dev := 0, Ino := 0, Mode := 0, Nlink := 0, Uid := 0, Gid := 0, Rdev := 0, Size := 0,
    Blksize := 0, Blocks := 0, Atim := { Sec := 0, Nsec := 0 }, Mtim := { Sec := 0, Nsec := 0 },
    Ctim := { Sec := 0, Nsec := 0 } }

/-- A filesystem-status structure with every field zero, as `syscall.Statfs_t{}`. -/
def zeroStatfs : syscall.Statfs_t :=
  { Bsize := 0, Blocks := 0, Bfree := 0, Bavail := 0, Files := 0, Ffree := 0, Namemax := 0 }

/-- A cross-platform filesystem-status structure with every field zero. -/
def zeroStatfsFuse : fuse.Statfs_t :=
  { Bsize := 0, Blocks := 0, Bfree := 0, Bavail := 0, Files := 0, Ffree := 0, Namemax := 0 }

/-- A cross-platform status structure with every field zero. -/
def zeroFuseStat : fuse.Stat_t :=
  { Dev := 0, Ino := 0, Mode := 0, Nlink := 0, Uid := 0, Gid := 0, Rdev := 0, Size := 0,
    Blksize := 0, Blocks := 0, Atim := { Sec := 0, Nsec := 0 }, Mtim := { Sec := 0, Nsec := 0 },
    Ctim := { Sec := 0, Nsec := 0 } }

/-- A native layer on which every call fails with the code `e`; `os.Open` wraps the code in
a `*os.PathError`, `Readdirnames` in a `*os.SyscallError`, as package `os` does. -/
def failingNative (e : Nat) : Native :=
  { Statfs := fun _ => (zeroStatfs, some e)
    Mknod := fun _ _ _ => some e
    Mkdir := fun _ _ => some e
    Unlink := fun _ => some e
    Rmdir := fun _ => some e
    Link := fun _ _ => some e
    Symlink := fun _ _ => some e
    Rename := fun _ _ => some e
    Chmod := fun _ _ => some e
    Chown := fun _ _ _ => some e
    UtimesNano := fun _ _ => some e
    Access := fun _ _ => some e
    Open := fun _ _ _ => (-1, some e)
    Stat := fun _ => (zeroStat, some e)
    Fstat := fun _ => (zeroStat, some e)
    Truncate := fun _ _ => some e
    Ftruncate := fun _ _ => some e
    Pread := fun _ buff _ => ((-1, buff), some e)
    Pwrite := fun _ _ _ => (-1, some e)
    Close := fun _ => some e
    Fsync := fun _ => some e
    OsOpen := fun name => Except.error (GoError.PathError "open" name (GoError.Errno e))
    Readdirnames := fun _ _ => ([], some (GoError.SyscallError "readdirent" (GoError.Errno e))) }

/-- A native layer on which every call succeeds: opening answers the descriptor `fd`, a read
or write transfers the whole buffer, and every directory lists `names`. -/
def workingNative (fd : Int) (names : List String) : Native :=
  { Statfs := fun _ => (zeroStatfs, none)
    Mknod := fun _ _ _ => none
    Mkdir := fun _ _ => none
    Unlink := fun _ => none
    Rmdir := fun _ => none
    Link := fun _ _ => none
    Symlink := fun _ _ => none
    Rename := fun _ _ => none
    Chmod := fun _ _ => none
    Chown := fun _ _ _ => none
    UtimesNano := fun _ _ => none
    Access := fun _ _ => none
    Open := fun _ _ _ => (fd, none)
    Stat := fun _ => (zeroStat, none)
    Fstat := fun _ => (zeroStat, none)
    Truncate := fun _ _ => none
    Ftruncate := fun _ _ => none
    Pread := fun _ buff _ => (((buff.length : Nat), buff), none)
    Pwrite := fun _ buff _ => (((buff.length : Nat) : Int), none)
    Close := fun _ => none
    Fsync := fun _ => none
    OsOpen := fun name => Except.ok { name := name, fd := fd }
    Readdirnames := fun _ _ => (names, none) }

/-! ## Arithmetic of the conversions -/

theorem toInt64_of_lt (n : Nat) (h : n < 2 ^ 63) : toInt64 n = (n : Int) := by
  unfold toInt64
  have h1 : n % 2 ^ 64 = n := Nat.mod_eq_of_lt (by omega)
  rw [h1, if_pos h]

theorem toUint64_of_nonneg (f : Int) (h0 : 0 ≤ f) (h1 : f < 2 ^ 64) :
    ((toUint64 f : Nat) : Int) = f := by
  unfold toUint64
  omega

theorem toUint64_of_neg (f : Int) (h0 : -2 ^ 64 ≤ f) (h1 : f < 0) :
    ((toUint64 f : Nat) : Int) = f + 2 ^ 64 := by
  unfold toUint64
  omega

theorem toUint64_lt (f : Int) : toUint64 f < 2 ^ 64 := by
  unfold toUint64
  omega

theorem toInt64_toUint64 (f : Int) (h0 : -2 ^ 63 ≤ f) (h1 : f < 2 ^ 63) :
    toInt64 (toUint64 f) = f := by
  have hlt := toUint64_lt f
  unfold toInt64
  rw [Nat.mod_eq_of_lt hlt]
  by_cases hf : 0 ≤ f
  · have h := toUint64_of_nonneg f hf (by omega)
    have : toUint64 f < 2 ^ 63 := by omega
    rw [if_pos this]
    exact h
  · have h := toUint64_of_neg f (by omega) (by omega)
    have : ¬ toUint64 f < 2 ^ 63 := by omega
    rw [if_neg this]
    omega

theorem toUint64_toInt64 (n : Nat) (h : n < 2 ^ 64) : toUint64 (toInt64 n) = n := by
  unfold toInt64
  rw [Nat.mod_eq_of_lt h]
  unfold toUint64
  split <;> omega

theorem toUint64_eq_sentinel (g : Int) (h0 : -2 ^ 63 ≤ g) (h1 : g < 2 ^ 63) :
    toUint64 g = sentinel ↔ g = -1 := by
  unfold sentinel
  by_cases hg : 0 ≤ g
  · have h := toUint64_of_nonneg g hg (by omega)
    omega
  · have h := toUint64_of_neg g (by omega) (by omega)
    omega

theorem errno_nil : errno none = Except.ok 0 := rfl

theorem errno_Errno (e : Nat) :
    errno (some (GoError.Errno e)) = Except.ok (wrapInt (-(toInt64 e))) := rfl

theorem errno_of_lt (e : Nat) (h : e < 2 ^ 63) :
    errno (some (GoError.Errno e)) = Except.ok (-(e : Int)) := by
  rw [errno_Errno, toInt64_of_lt e h]
  unfold wrapInt
  rw [toInt64_toUint64 _ (by omega) (by omega)]

theorem errno_of_le (e : Nat) (h : e ≤ 2 ^ 63) :
    errno (some (GoError.Errno e)) = Except.ok (-(e : Int)) := by
  rcases Nat.lt_or_ge e (2 ^ 63) with hlt | hge
  · exact errno_of_lt e hlt
  · have he : e = 2 ^ 63 := Nat.le_antisymm h hge
    subst he
    rw [errno_Errno]
    unfold wrapInt toInt64 toUint64
    norm_num
    omega

theorem wrapInt_neg_toInt64_neg_iff (e : Nat) (h : e < 2 ^ 64) :
    wrapInt (-(toInt64 e)) < 0 ↔ 0 < e ∧ e ≤ 2 ^ 63 := by
  unfold wrapInt toInt64 toUint64
  rw [Nat.mod_eq_of_lt h]
  split <;> split <;> omega

theorem errno_asError_of_lt (e : Nat) (h : e < 2 ^ 63) :
    errno (asError (some e)) = Except.ok (-(e : Int)) := errno_of_lt e h

theorem wrapInt_neg_toInt64_inj (a b : Nat) (ha : a < 2 ^ 64) (hb : b < 2 ^ 64)
    (h : wrapInt (-(toInt64 a)) = wrapInt (-(toInt64 b))) : a = b := by
  unfold wrapInt toInt64 toUint64 at h
  rw [Nat.mod_eq_of_lt ha, Nat.mod_eq_of_lt hb] at h
  split at h <;> split at h <;> split at h <;> split at h <;> omega

/-! ## The Error Translator -/

/-- C1 (amended). The Error Translator on the native numeric error type: `errno` returns
`0` for the absent error; for a `syscall.Errno` with code `e` up to `2 ^ 63` it returns
exactly `-e`; distinct 64-bit codes give distinct results; and an `Unlink` whose native call
on the resolved path fails with `ENOENT` issues that one call and returns `-ENOENT`. -/
theorem errno_contract :
    errno none = Except.ok 0 ∧
    (∀ e : Nat, e ≤ 2 ^ 63 → errno (some (GoError.Errno e)) = Except.ok (-(e : Int))) ∧
    (∀ e1 e2 : Nat, e1 < 2 ^ 64 → e2 < 2 ^ 64 →
      errno (some (GoError.Errno e1)) = errno (some (GoError.Errno e2)) → e1 = e2) ∧
    (∀ (env : Native) (self : Ptfs) (path : String),
      env.Unlink (filepath.Join self.root path) = some syscall.ENOENT →
      (Ptfs.Unlink env self path).calls = [Call.Unlink (filepath.Join self.root path)] ∧
      (Ptfs.Unlink env self path).ret = Except.ok (-(syscall.ENOENT : Int))) := by
  refine ⟨rfl, errno_of_le, ?_, ?_⟩
  · intro e1 e2 h1 h2 h
    rw [errno_Errno, errno_Errno] at h
    exact wrapInt_neg_toInt64_inj e1 e2 h1 h2 (Except.ok.inj h)
  · intro env self path h
    refine ⟨rfl, ?_⟩
    show errno (asError (env.Unlink (filepath.Join self.root path))) = _
    rw [h]
    exact errno_asError_of_lt syscall.ENOENT (by unfold syscall.ENOENT; omega)

/-- C1 as stated fails: for the `syscall.Errno` with code `2 ^ 64 - 1` the function `errno`
returns `1`, not the negation of the code, so `errno` is not the negation on every 64-bit
code; and on the `*os.PathError` carrying `ENOENT` it returns no value at all. -/
theorem errno_contract_counterexample :
    errno (some (GoError.Errno (2 ^ 64 - 1))) = Except.ok 1 ∧
    errno (some (GoError.Errno (2 ^ 64 - 1))) ≠ Except.ok (-((2 ^ 64 - 1 : Nat) : Int)) ∧
    ¬ (∀ e : Nat, e < 2 ^ 64 → errno (some (GoError.Errno e)) = Except.ok (-(e : Int))) ∧
    errno (some (GoError.PathError "open" "/nope" (GoError.Errno syscall.ENOENT)))
      = Except.error Panic.typeAssertion ∧
    ¬ (∀ err : GoError, ∃ v : Int, errno (some err) = Except.ok v) := by
  have h1 : errno (some (GoError.Errno (2 ^ 64 - 1))) = Except.ok 1 := by
    rw [errno_Errno]
    unfold wrapInt toInt64 toUint64
    norm_num
  refine ⟨h1, ?_, ?_, rfl, ?_⟩
  · rw [h1]
    intro h
    have := Except.ok.inj h
    omega
  · intro h
    have h2 := h (2 ^ 64 - 1) (by omega)
    rw [h1] at h2
    have := Except.ok.inj h2
    omega
  · intro h
    obtain ⟨v, hv⟩ := h (GoError.PathError "open" "/nope" (GoError.Errno syscall.ENOENT))
    exact Except.noConfusion hv

/-- C1 at concrete inputs: `errno` of the codes 2 and 13 gives -2 and -13, and `Unlink` of
`/missing` under the root `/srv/data`, failing with `ENOENT`, returns -2. -/
theorem errno_contract_witness :
    errno (some (GoError.Errno 2)) = Except.ok (-2) ∧
    errno (some (GoError.Errno 13)) = Except.ok (-13) ∧
    (Ptfs.Unlink (failingNative syscall.ENOENT) { root := "/srv/data" } "/missing").calls
      = [Call.Unlink "/srv/data/missing"] ∧
    (Ptfs.Unlink (failingNative syscall.ENOENT) { root := "/srv/data" } "/missing").ret
      = Except.ok (-2) :=
  ⟨errno_contract.2.1 2 (by omega), errno_contract.2.1 13 (by omega),
    by decide,
    (errno_contract.2.2.2 (failingNative syscall.ENOENT) { root := "/srv/data" } "/missing"
      rfl).2⟩

/-! ## Handles -/

/-- C10. Handle round trip: for a descriptor `f` with `0 ≤ f < 2 ^ 63`, the handle
`uint64(f)` that `Create`, `Open` and `Opendir` return on a successful open differs from
the sentinel, and `int(uint64(f))` is `f` again, so that `Getattr` and `Truncate` take the
by-descriptor branch on `f`, and `Read`, `Write`, `Release`, `Fsync` and `Releasedir` act
on `f`; among all `int` values the widening maps `-1`, and only `-1`, to the sentinel. -/
theorem handle_round_trip (f : Int) (h0 : 0 ≤ f) (h1 : f < 2 ^ 63) :
    toUint64 f ≠ sentinel ∧
    toInt64 (toUint64 f) = f ∧
    (∀ (env : Native) (self : Ptfs) (path : String) (mode : Nat) (flags : Int),
      ((env.Open (filepath.Join self.root path)
          ((syscall.O_WRONLY ||| syscall.O_CREAT ||| syscall.O_TRUNC : Nat) : Int) mode = (f, none) →
        (Ptfs.Create env self path mode).ret = Except.ok (0, toUint64 f)) ∧
       (env.Open (filepath.Join self.root path) flags 0 = (f, none) →
        (Ptfs.Open env self path flags).ret = Except.ok (0, toUint64 f)) ∧
       (env.Open (filepath.Join self.root path)
          ((syscall.O_RDONLY ||| syscall.O_DIRECTORY : Nat) : Int) 0 = (f, none) →
        (Ptfs.Opendir env self path).ret = Except.ok (0, toUint64 f)))) ∧
    (∀ (env : Native) (self : Ptfs) (path : String) (stat : fuse.Stat_t) (size : Int)
        (buff : List Nat) (ofst : Int) (datasync : Bool),
      (Ptfs.Getattr env self path stat (toUint64 f)).calls = [Call.Fstat f] ∧
      (Ptfs.Truncate env self path size (toUint64 f)).calls = [Call.Ftruncate f size] ∧
      (Ptfs.Read env self path buff ofst (toUint64 f)).calls = [Call.Pread f buff ofst] ∧
      (Ptfs.Write env self path buff ofst (toUint64 f)).calls = [Call.Pwrite f buff ofst] ∧
      (Ptfs.Release env self path (toUint64 f)).calls = [Call.Close f] ∧
      (Ptfs.Fsync env self path datasync (toUint64 f)).calls = [Call.Fsync f] ∧
      (Ptfs.Releasedir env self path (toUint64 f)).calls = [Call.Close f]) ∧
    (∀ g : Int, -2 ^ 63 ≤ g → g < 2 ^ 63 → (toUint64 g = sentinel ↔ g = -1)) := by
  have hne : toUint64 f ≠ sentinel := by
    intro h
    have := (toUint64_eq_sentinel f (by omega) h1).mp h
    omega
  have hrt : toInt64 (toUint64 f) = f := toInt64_toUint64 f (by omega) h1
  refine ⟨hne, hrt, ?_, ?_, toUint64_eq_sentinel⟩
  · intro env self path mode flags
    refine ⟨?_, ?_, ?_⟩
    · intro h
      simp only [Ptfs.Create, h]
    · intro h
      simp only [Ptfs.Open, h]
    · intro h
      simp only [Ptfs.Opendir, h]
  · intro env self path stat size buff ofst datasync
    have hne2 : ¬ sentinel = toUint64 f := fun h => hne h.symm
    refine ⟨?_, ?_, ?_, ?_, ?_, ?_, ?_⟩
    · simp only [Ptfs.Getattr, if_neg hne2, hrt]
    · simp only [Ptfs.Truncate, if_neg hne2, hrt]
    · simp only [Ptfs.Read, hrt]
    · simp only [Ptfs.Write, hrt]
    · simp only [Ptfs.Release, hrt]
    · simp only [Ptfs.Fsync, hrt]
    · simp only [Ptfs.Releasedir, hrt]

/-- C10 at the descriptor 3: the handle is 3, not the sentinel, and `Getattr` on it issues
`fstat(3)`. -/
theorem handle_round_trip_witness :
    toUint64 3 ≠ sentinel ∧ toInt64 (toUint64 3) = 3 ∧
    (Ptfs.Create (workingNative 3 []) { root := "/srv/data" } "/f" 420).ret
      = Except.ok (0, toUint64 3) ∧
    (Ptfs.Getattr (workingNative 3 []) { root := "/srv/data" } "/f" zeroFuseStat
      (toUint64 3)).calls = [Call.Fstat 3] :=
  have h := handle_round_trip 3 (by omega) (by omega)
  ⟨h.1, h.2.1,
    (h.2.2.1 (workingNative 3 []) { root := "/srv/data" } "/f" 420 0).1 rfl,
    (h.2.2.2.1 (workingNative 3 []) { root := "/srv/data" } "/f" zeroFuseStat 0 [] 0 false).1⟩

/-! ## Dual-mode operations -/

/-- C5. Sentinel dispatch: `Getattr` and `Truncate` issue the by-path call (`stat`,
`truncate`) on `join(root, path)` exactly when `fh` is the sentinel `2 ^ 64 - 1`; for every
other `fh` they issue the by-descriptor call (`fstat`, `ftruncate`) on `int(fh)` and their
outcome is the same for every path and root; in both modes exactly one native call is
issued and the result code is `errno` of that call's error. -/
theorem sentinel_dispatch (env : Native) (self : Ptfs) (path : String) (stat : fuse.Stat_t)
    (size : Int) (fh : Nat) :
    ((Ptfs.Getattr env self path stat fh).calls = [Call.Stat (filepath.Join self.root path)]
      ↔ fh = sentinel) ∧
    ((Ptfs.Truncate env self path size fh).calls
        = [Call.Truncate (filepath.Join self.root path) size] ↔ fh = sentinel) ∧
    (fh = sentinel →
      (Ptfs.Getattr env self path stat fh).ret.map Prod.fst
        = errno (asError (env.Stat (filepath.Join self.root path)).2) ∧
      (Ptfs.Truncate env self path size fh).ret
        = errno (asError (env.Truncate (filepath.Join self.root path) size))) ∧
    (fh ≠ sentinel →
      (Ptfs.Getattr env self path stat fh).calls = [Call.Fstat (toInt64 fh)] ∧
      (Ptfs.Truncate env self path size fh).calls = [Call.Ftruncate (toInt64 fh) size] ∧
      (Ptfs.Getattr env self path stat fh).ret.map Prod.fst
        = errno (asError (env.Fstat (toInt64 fh)).2) ∧
      (Ptfs.Truncate env self path size fh).ret
        = errno (asError (env.Ftruncate (toInt64 fh) size)) ∧
      (∀ (other : Ptfs) (path2 : String),
        Ptfs.Getattr env other path2 stat fh = Ptfs.Getattr env self path stat fh ∧
        Ptfs.Truncate env other path2 size fh = Ptfs.Truncate env self path size fh)) := by
  have hmap : ∀ (r : Except Panic Int) (st : fuse.Stat_t),
      (r.map fun errc => (errc, st)).map Prod.fst = r := by
    intro r st
    cases r <;> rfl
  by_cases h : sentinel = fh
  · have h2 : fh = sentinel := h.symm
    refine ⟨?_, ?_, ?_, ?_⟩
    · simp [Ptfs.Getattr, h2]
    · simp [Ptfs.Truncate, h2]
    · intro _
      refine ⟨?_, ?_⟩
      · simp only [Ptfs.Getattr, if_pos h]
        exact hmap _ _
      · simp only [Ptfs.Truncate, if_pos h]
    · intro hne
      exact absurd h2 hne
  · have h2 : fh ≠ sentinel := fun e => h e.symm
    refine ⟨?_, ?_, ?_, ?_⟩
    · simp [Ptfs.Getattr, if_neg h, h2]
    · simp [Ptfs.Truncate, if_neg h, h2]
    · intro e
      exact absurd e h2
    · intro _
      refine ⟨?_, ?_, ?_, ?_, ?_⟩
      · simp only [Ptfs.Getattr, if_neg h]
      · simp only [Ptfs.Truncate, if_neg h]
      · simp only [Ptfs.Getattr, if_neg h]
        exact hmap _ _
      · simp only [Ptfs.Truncate, if_neg h]
      · intro other path2
        refine ⟨?_, ?_⟩
        · simp only [Ptfs.Getattr, if_neg h]
        · simp only [Ptfs.Truncate, if_neg h]

/-- C5 at concrete inputs: with the sentinel `Getattr` stats `/srv/data/f`, with the handle
5 it issues `fstat(5)`. -/
theorem sentinel_dispatch_witness :
    (Ptfs.Getattr (workingNative 5 []) { root := "/srv/data" } "/f" zeroFuseStat sentinel).calls
      = [Call.Stat "/srv/data/f"] ∧
    (Ptfs.Getattr (workingNative 5 []) { root := "/srv/data" } "/f" zeroFuseStat 5).calls
      = [Call.Fstat 5] ∧
    (Ptfs.Truncate (workingNative 5 []) { root := "/srv/data" } "/f" 10 5).calls
      = [Call.Ftruncate 5 10] :=
  ⟨((sentinel_dispatch (workingNative 5 []) { root := "/srv/data" } "/f" zeroFuseStat 10
      sentinel).1.mpr rfl).trans (by decide),
   ((sentinel_dispatch (workingNative 5 []) { root := "/srv/data" } "/f" zeroFuseStat 10
      5).2.2.2 (by decide)).1.trans (by decide),
   ((sentinel_dispatch (workingNative 5 []) { root := "/srv/data" } "/f" zeroFuseStat 10
      5).2.2.2 (by decide)).2.1.trans (by decide)⟩

/-! ## Open-class operations -/

/-- C6. Open-class results: `Create`, `Open` and `Opendir` issue one native open on
`join(root, path)` (`Create` with write-only, create, truncate and the given mode; `Open`
with the flags of the caller and mode 0; `Opendir` with read-only, directory and mode 0);
when the native open fails with the code `e` they return `(errno(e), sentinel)`, when it
succeeds with the descriptor `f` they return `(0, uint64(f))`; the handle is the sentinel
whenever the result code is not zero. -/
theorem open_class_results (env : Native) (self : Ptfs) (path : String) (mode : Nat)
    (flags : Int) :
    (Ptfs.Create env self path mode).calls
      = [Call.Open (filepath.Join self.root path)
          ((syscall.O_WRONLY ||| syscall.O_CREAT ||| syscall.O_TRUNC : Nat) : Int) mode] ∧
    (Ptfs.Open env self path flags).calls
      = [Call.Open (filepath.Join self.root path) flags 0] ∧
    (Ptfs.Opendir env self path).calls
      = [Call.Open (filepath.Join self.root path)
          ((syscall.O_RDONLY ||| syscall.O_DIRECTORY : Nat) : Int) 0] ∧
    (∀ (f : Int) (e : Nat),
      (env.Open (filepath.Join self.root path)
          ((syscall.O_WRONLY ||| syscall.O_CREAT ||| syscall.O_TRUNC : Nat) : Int) mode
          = (f, some e) →
        ∃ c, errno (some (GoError.Errno e)) = Except.ok c ∧
          (Ptfs.Create env self path mode).ret = Except.ok (c, sentinel)) ∧
      (env.Open (filepath.Join self.root path) flags 0 = (f, some e) →
        ∃ c, errno (some (GoError.Errno e)) = Except.ok c ∧
          (Ptfs.Open env self path flags).ret = Except.ok (c, sentinel)) ∧
      (env.Open (filepath.Join self.root path)
          ((syscall.O_RDONLY ||| syscall.O_DIRECTORY : Nat) : Int) 0 = (f, some e) →
        ∃ c, errno (some (GoError.Errno e)) = Except.ok c ∧
          (Ptfs.Opendir env self path).ret = Except.ok (c, sentinel))) ∧
    (∀ f : Int,
      (env.Open (filepath.Join self.root path)
          ((syscall.O_WRONLY ||| syscall.O_CREAT ||| syscall.O_TRUNC : Nat) : Int) mode
          = (f, none) →
        (Ptfs.Create env self path mode).ret = Except.ok (0, toUint64 f)) ∧
      (env.Open (filepath.Join self.root path) flags 0 = (f, none) →
        (Ptfs.Open env self path flags).ret = Except.ok (0, toUint64 f)) ∧
      (env.Open (filepath.Join self.root path)
          ((syscall.O_RDONLY ||| syscall.O_DIRECTORY : Nat) : Int) 0 = (f, none) →
        (Ptfs.Opendir env self path).ret = Except.ok (0, toUint64 f))) ∧
    (∀ (errc : Int) (h : Nat), errc ≠ 0 →
      ((Ptfs.Create env self path mode).ret = Except.ok (errc, h) → h = sentinel) ∧
      ((Ptfs.Open env self path flags).ret = Except.ok (errc, h) → h = sentinel) ∧
      ((Ptfs.Opendir env self path).ret = Except.ok (errc, h) → h = sentinel)) := by
  have key : ∀ (r : Int × Option Nat) (errc : Int) (h : Nat), errc ≠ 0 →
      (match r.2 with
        | some e => (errno (asError (some e))).map fun errc => (errc, sentinel)
        | none => Except.ok (0, toUint64 r.1)) = Except.ok (errc, h) → h = sentinel := by
    intro r errc h hne heq
    rcases r with ⟨f, _ | e⟩
    · simp only [Except.ok.injEq, Prod.mk.injEq] at heq
      exact absurd heq.1.symm hne
    · simp only [asError, Option.map, errno, Except.map, Except.ok.injEq, Prod.mk.injEq] at heq
      exact heq.2.symm
  refine ⟨rfl, rfl, rfl, ?_, ?_, ?_⟩
  · intro f e
    refine ⟨?_, ?_, ?_⟩ <;> intro h
    · exact ⟨_, errno_Errno e, by simp only [Ptfs.Create, h]; rfl⟩
    · exact ⟨_, errno_Errno e, by simp only [Ptfs.Open, h]; rfl⟩
    · exact ⟨_, errno_Errno e, by simp only [Ptfs.Opendir, h]; rfl⟩
  · intro f
    refine ⟨?_, ?_, ?_⟩ <;> intro h
    · simp only [Ptfs.Create, h]
    · simp only [Ptfs.Open, h]
    · simp only [Ptfs.Opendir, h]
  · intro errc h hne
    exact ⟨key _ errc h hne, key _ errc h hne, key _ errc h hne⟩

/-- C6 at concrete inputs: a `Create` that succeeds with the descriptor 7 returns `(0, 7)`; an
`Opendir` that fails with `ENOENT` returns `(-2, sentinel)`. -/
theorem open_class_results_witness :
    (Ptfs.Create (workingNative 7 []) { root := "/srv/data" } "/f" 420).calls
      = [Call.Open "/srv/data/f" 577 420] ∧
    (Ptfs.Create (workingNative 7 []) { root := "/srv/data" } "/f" 420).ret = Except.ok (0, 7) ∧
    (Ptfs.Opendir (failingNative 2) { root := "/srv/data" } "/d").ret
      = Except.ok (-2, 2 ^ 64 - 1) :=
  ⟨(open_class_results (workingNative 7 []) { root := "/srv/data" } "/f" 420 0).1.trans
      (by decide),
   ((open_class_results (workingNative 7 []) { root := "/srv/data" } "/f" 420 0).2.2.2.2.1
      7).1 rfl,
   by
    obtain ⟨c, hc, hret⟩ :=
      ((open_class_results (failingNative 2) { root := "/srv/data" } "/d" 0 0).2.2.2.1
        (-1) 2).2.2 rfl
    rw [hret]
    have hc2 : c = -2 := (Except.ok.inj ((errno_of_lt 2 (by omega)).symm.trans hc)).symm
    rw [hc2]
    rfl⟩

/-! ## Positioned read and write -/

/-- C7. Read and Write results: `Read` (`Write`) issues exactly one positioned read (write)
on the descriptor `int(fh)` with the given buffer and offset; when the native call succeeds
transferring `n` bytes the result is `n`; when it fails with the code `e` the result is
`errno(e)`, which is `-e` for a code below `2 ^ 63`; the outcome is the same for every path
argument and every root. -/
theorem read_write_results (env : Native) (self : Ptfs) (path : String) (buff : List Nat)
    (ofst : Int) (fh : Nat) :
    (Ptfs.Read env self path buff ofst fh).calls = [Call.Pread (toInt64 fh) buff ofst] ∧
    (Ptfs.Write env self path buff ofst fh).calls = [Call.Pwrite (toInt64 fh) buff ofst] ∧
    (∀ (n : Int) (out : List Nat), env.Pread (toInt64 fh) buff ofst = ((n, out), none) →
      (Ptfs.Read env self path buff ofst fh).ret = Except.ok (n, out)) ∧
    (∀ n : Int, env.Pwrite (toInt64 fh) buff ofst = (n, none) →
      (Ptfs.Write env self path buff ofst fh).ret = Except.ok n) ∧
    (∀ (n : Int) (out : List Nat) (e : Nat),
      env.Pread (toInt64 fh) buff ofst = ((n, out), some e) →
      (Ptfs.Read env self path buff ofst fh).ret.map Prod.fst = errno (some (GoError.Errno e)) ∧
      (e < 2 ^ 63 → (Ptfs.Read env self path buff ofst fh).ret = Except.ok (-(e : Int), out))) ∧
    (∀ (n : Int) (e : Nat), env.Pwrite (toInt64 fh) buff ofst = (n, some e) →
      (Ptfs.Write env self path buff ofst fh).ret = errno (some (GoError.Errno e)) ∧
      (e < 2 ^ 63 → (Ptfs.Write env self path buff ofst fh).ret = Except.ok (-(e : Int)))) ∧
    (∀ (other : Ptfs) (path2 : String),
      Ptfs.Read env other path2 buff ofst fh = Ptfs.Read env self path buff ofst fh ∧
      Ptfs.Write env other path2 buff ofst fh = Ptfs.Write env self path buff ofst fh) := by
  refine ⟨rfl, rfl, ?_, ?_, ?_, ?_, ?_⟩
  · intro n out h
    simp only [Ptfs.Read, h]
  · intro n h
    simp only [Ptfs.Write, h]
  · intro n out e h
    refine ⟨?_, ?_⟩
    · simp only [Ptfs.Read, h]
      rfl
    · intro he
      simp only [Ptfs.Read, h, errno_asError_of_lt e he]
      rfl
  · intro n e h
    refine ⟨?_, ?_⟩
    · simp only [Ptfs.Write, h]
      rfl
    · intro he
      simp only [Ptfs.Write, h, errno_asError_of_lt e he]
  · intro other path2
    exact ⟨rfl, rfl⟩

/-- C7 at concrete inputs: a read of 3 bytes on the handle 4 returns 3; a write that fails
with the code 9 (bad descriptor) returns -9. -/
theorem read_write_results_witness :
    (Ptfs.Read (workingNative 4 []) { root := "/srv/data" } "/f" [0, 0, 0] 0 4).calls
      = [Call.Pread 4 [0, 0, 0] 0] ∧
    (Ptfs.Read (workingNative 4 []) { root := "/srv/data" } "/f" [0, 0, 0] 0 4).ret
      = Except.ok (3, [0, 0, 0]) ∧
    (Ptfs.Write (failingNative 9) { root := "/srv/data" } "/f" [1, 2] 0 4).ret
      = Except.ok (-9) :=
  ⟨(read_write_results (workingNative 4 []) { root := "/srv/data" } "/f" [0, 0, 0] 0 4).1.trans
      (by decide),
   (read_write_results (workingNative 4 []) { root := "/srv/data" } "/f" [0, 0, 0] 0
      4).2.2.1 3 [0, 0, 0] rfl,
   ((read_write_results (failingNative 9) { root := "/srv/data" } "/f" [1, 2] 0
      4).2.2.2.2.2.1 (-1) 9 rfl).2 (by omega)⟩

/-! ## Timestamps -/

/-- C9. Utimens timestamp mapping: for a timestamp sequence with at least two elements,
`Utimens` issues one `UtimesNano` on `join(root, path)` with exactly two timestamps, entry 0
carrying seconds and nanoseconds of input element 0 and entry 1 those of input element 1,
and returns `errno` of that call; for `[(1000,0),(2000,500)]` the call receives access time
1000s/0ns and modification time 2000s/500ns; for a sequence with fewer than two elements it
issues no call and returns no result code (index out of range). -/
theorem utimens_mapping (env : Native) (self : Ptfs) (path : String) :
    (∀ (t0 t1 : fuse.Timespec) (rest : List fuse.Timespec),
      (Ptfs.Utimens env self path (t0 :: t1 :: rest)).calls
        = [Call.UtimesNano (filepath.Join self.root path)
            [{ Sec := t0.Sec, Nsec := t0.Nsec }, { Sec := t1.Sec, Nsec := t1.Nsec }]] ∧
      (Ptfs.Utimens env self path (t0 :: t1 :: rest)).ret
        = errno (asError (env.UtimesNano (filepath.Join self.root path)
            [{ Sec := t0.Sec, Nsec := t0.Nsec }, { Sec := t1.Sec, Nsec := t1.Nsec }]))) ∧
    (Ptfs.Utimens env self path [{ Sec := 1000, Nsec := 0 }, { Sec := 2000, Nsec := 500 }]).calls
      = [Call.UtimesNano (filepath.Join self.root path)
          [{ Sec := 1000, Nsec := 0 }, { Sec := 2000, Nsec := 500 }]] ∧
    (∀ tmsp1 : List fuse.Timespec, tmsp1.length < 2 →
      (Ptfs.Utimens env self path tmsp1).calls = [] ∧
      (Ptfs.Utimens env self path tmsp1).ret = Except.error Panic.indexOutOfRange) := by
  refine ⟨?_, ?_, ?_⟩
  · intro t0 t1 rest
    simp [Ptfs.Utimens]
  · simp [Ptfs.Utimens]
  · intro tmsp1 h
    match tmsp1, h with
    | [], _ => simp [Ptfs.Utimens]
    | [_], _ => simp [Ptfs.Utimens]
    | _ :: _ :: _, h =>
      simp only [List.length_cons] at h
      omega

/-- C9 at concrete inputs: the call issued for `/f` under `/srv/data`, and the panic on a
one-element sequence. -/
theorem utimens_mapping_witness :
    (Ptfs.Utimens (workingNative 3 []) { root := "/srv/data" } "/f"
        [{ Sec := 1000, Nsec := 0 }, { Sec := 2000, Nsec := 500 }]).calls
      = [Call.UtimesNano "/srv/data/f" [{ Sec := 1000, Nsec := 0 }, { Sec := 2000, Nsec := 500 }]] ∧
    (Ptfs.Utimens (workingNative 3 []) { root := "/srv/data" } "/f"
        [{ Sec := 1000, Nsec := 0 }]).ret = Except.error Panic.indexOutOfRange :=
  ⟨(utimens_mapping (workingNative 3 []) { root := "/srv/data" } "/f").2.1.trans (by decide),
   ((utimens_mapping (workingNative 3 []) { root := "/srv/data" } "/f").2.2
      [{ Sec := 1000, Nsec := 0 }] (by decide)).2⟩

/-! ## Directory enumeration -/

theorem fillLoop_length_le {σ : Type} (fill : σ → String → Option fuse.Stat_t → Int → Bool × σ)
    (nams : List String) (s : σ) : (fillLoop fill nams s).1.length ≤ nams.length := by
  induction nams generalizing s with
  | nil => simp [fillLoop]
  | cons name rest ih =>
    unfold fillLoop
    by_cases h : (fill s name none 0).1 = true
    · simp only [h, Bool.not_true, Bool.false_eq_true, if_false, List.length_cons]
      exact Nat.succ_le_succ (ih _)
    · simp [h]

theorem fillLoop_names {σ : Type} (fill : σ → String → Option fuse.Stat_t → Int → Bool × σ)
    (nams : List String) (s : σ) :
    (fillLoop fill nams s).1.map (fun c => c.name)
      = nams.take (fillLoop fill nams s).1.length := by
  induction nams generalizing s with
  | nil => simp [fillLoop]
  | cons name rest ih =>
    unfold fillLoop
    by_cases h : (fill s name none 0).1 = true
    · simp only [h, Bool.not_true, Bool.false_eq_true, if_false, List.length_cons, List.map_cons,
        List.take_succ_cons]
      rw [ih]
    · simp [h]

theorem fillLoop_args {σ : Type} (fill : σ → String → Option fuse.Stat_t → Int → Bool × σ)
    (nams : List String) (s : σ) :
    ∀ c ∈ (fillLoop fill nams s).1, c.stat = none ∧ c.ofst = 0 := by
  induction nams generalizing s with
  | nil => simp [fillLoop]
  | cons name rest ih =>
    unfold fillLoop
    by_cases h : (fill s name none 0).1 = true
    · simp only [h, Bool.not_true, Bool.false_eq_true, if_false, List.mem_cons]
      rintro c (rfl | hc)
      · exact ⟨rfl, rfl⟩
      · exact ih _ c hc
    · simp [h]

theorem fillLoop_all_true {σ : Type} (fill : σ → String → Option fuse.Stat_t → Int → Bool × σ)
    (nams : List String) (s : σ) (hall : ∀ c ∈ (fillLoop fill nams s).1, c.more = true) :
    (fillLoop fill nams s).1.length = nams.length := by
  induction nams generalizing s with
  | nil => simp [fillLoop]
  | cons name rest ih =>
    unfold fillLoop at hall ⊢
    by_cases h : (fill s name none 0).1 = true
    · simp only [h, Bool.not_true, Bool.false_eq_true, if_false, List.mem_cons,
        List.length_cons] at hall ⊢
      rw [ih _ (fun c hc => hall c (Or.inr hc))]
    · simp only [h, Bool.not_false, if_true, List.mem_singleton, forall_eq] at hall
      simp at h
      simp [h] at hall

theorem fillLoop_stops {σ : Type} (fill : σ → String → Option fuse.Stat_t → Int → Bool × σ)
    (nams : List String) (s : σ) (i : Nat) (c : FillCall)
    (hget : (fillLoop fill nams s).1[i]? = some c) (hfalse : c.more = false) :
    (fillLoop fill nams s).1.length = i + 1 := by
  induction nams generalizing s i with
  | nil => simp [fillLoop] at hget
  | cons name rest ih =>
    unfold fillLoop at hget ⊢
    by_cases h : (fill s name none 0).1 = true
    · simp only [h, Bool.not_true, Bool.false_eq_true, if_false, List.length_cons] at hget ⊢
      cases i with
      | zero =>
        simp only [List.getElem?_cons_zero, Option.some.injEq] at hget
        rw [← hget] at hfalse
        simp at hfalse
      | succ j =>
        simp only [List.getElem?_cons_succ] at hget
        rw [ih (fill s name none 0).2 j hget]
    · simp only [Bool.not_eq_true] at h
      simp only [h, Bool.not_false, if_true, List.length_cons, List.length_nil] at hget ⊢
      cases i with
      | zero => rfl
      | succ j => simp at hget

theorem fillLoop_pure {σ : Type} (f : String → Bool) (nams : List String) (s : σ) :
    (fillLoop (fun (st : σ) name _ _ => (f name, st)) nams s).1.length
      = min (nams.findIdx (fun name => !f name) + 1) nams.length := by
  induction nams generalizing s with
  | nil => simp [fillLoop]
  | cons name rest ih =>
    unfold fillLoop
    by_cases h : f name = true
    · simp only [h, Bool.not_true, Bool.false_eq_true, if_false, List.length_cons,
        List.findIdx_cons, cond_false]
      rw [ih]
      omega
    · simp at h
      simp [h, List.findIdx_cons]

theorem fillLoop_get {σ : Type} (fill : σ → String → Option fuse.Stat_t → Int → Bool × σ)
    (nams : List String) (s : σ) (i : Nat) (c : FillCall)
    (hget : (fillLoop fill nams s).1[i]? = some c) :
    ∃ name, nams[i]? = some name ∧
      c = { name := name, stat := none, ofst := 0,
            more := (fill ((nams.take i).foldl (fun st nm => (fill st nm none 0).2) s)
              name none 0).1 } := by
  induction nams generalizing s i with
  | nil => simp [fillLoop] at hget
  | cons name rest ih =>
    unfold fillLoop at hget
    by_cases h : (fill s name none 0).1 = true
    · simp only [h, Bool.not_true, Bool.false_eq_true, if_false] at hget
      cases i with
      | zero =>
        simp only [List.getElem?_cons_zero, Option.some.injEq] at hget
        exact ⟨name, by simp, by simp [← hget, h]⟩
      | succ j =>
        simp only [List.getElem?_cons_succ] at hget
        obtain ⟨nm, hnm, hc⟩ := ih (fill s name none 0).2 j hget
        exact ⟨nm, by simpa using hnm, by simpa using hc⟩
    · simp only [Bool.not_eq_true] at h
      simp only [h, Bool.not_false, if_true] at hget
      cases i with
      | zero =>
        simp only [List.getElem?_cons_zero, Option.some.injEq] at hget
        exact ⟨name, by simp, by simp [← hget, h]⟩
      | succ j => simp at hget

theorem fillLoop_state {σ : Type} (fill : σ → String → Option fuse.Stat_t → Int → Bool × σ)
    (nams : List String) (s : σ) :
    (fillLoop fill nams s).2
      = (nams.take (fillLoop fill nams s).1.length).foldl
          (fun st nm => (fill st nm none 0).2) s := by
  induction nams generalizing s with
  | nil => simp [fillLoop]
  | cons name rest ih =>
    unfold fillLoop
    by_cases h : (fill s name none 0).1 = true
    · simp only [h, Bool.not_true, Bool.false_eq_true, if_false, List.length_cons,
        List.take_succ_cons, List.foldl_cons]
      exact ih _
    · simp only [Bool.not_eq_true] at h
      simp [h]

theorem fillLoop_never_false {σ : Type}
    (fill : σ → String → Option fuse.Stat_t → Int → Bool × σ) (nams : List String) (s : σ)
    (hall : ∀ (i : Nat) (name : String), nams[i]? = some name →
      (fill ((nams.take i).foldl (fun st nm => (fill st nm none 0).2) s) name none 0).1 = true) :
    (fillLoop fill nams s).1.length = nams.length := by
  induction nams generalizing s with
  | nil => simp [fillLoop]
  | cons name rest ih =>
    unfold fillLoop
    have h : (fill s name none 0).1 = true := by simpa using hall 0 name (by simp)
    simp only [h, Bool.not_true, Bool.false_eq_true, if_false, List.length_cons]
    rw [ih (fill s name none 0).2]
    intro i nm hnm
    simpa using hall (i + 1) nm (by simpa using hnm)

theorem fillLoop_first_false {σ : Type}
    (fill : σ → String → Option fuse.Stat_t → Int → Bool × σ) (nams : List String) (s : σ)
    (i : Nat) (name : String) (hname : nams[i]? = some name)
    (hfalse : (fill ((nams.take i).foldl (fun st nm => (fill st nm none 0).2) s)
      name none 0).1 = false)
    (hbefore : ∀ (j : Nat) (nm : String), j < i → nams[j]? = some nm →
      (fill ((nams.take j).foldl (fun st nm => (fill st nm none 0).2) s) nm none 0).1 = true) :
    (fillLoop fill nams s).1.length = i + 1 := by
  induction nams generalizing s i with
  | nil => simp at hname
  | cons first rest ih =>
    unfold fillLoop
    cases i with
    | zero =>
      simp only [List.getElem?_cons_zero, Option.some.injEq] at hname
      subst hname
      have h : (fill s first none 0).1 = false := by simpa using hfalse
      simp [h]
    | succ j =>
      have h : (fill s first none 0).1 = true := by
        simpa using hbefore 0 first (by omega) (by simp)
      simp only [h, Bool.not_true, Bool.false_eq_true, if_false, List.length_cons]
      rw [ih (fill s first none 0).2 j (by simpa using hname) (by simpa using hfalse)]
      intro k nm hk hnm
      simpa using hbefore (k + 1) nm (by omega) (by simpa using hnm)

/-- C4. Readdir short-circuiting enumeration: when the directory opens and its enumeration
yields the names `nams`, `Readdir` returns 0 and invokes the callback, a closure over a
state, on a leading part of `nams`, in order, every time with absent metadata and offset 0:
the invocation of index `i` is on the name of index `i` in the state the earlier invocations
left (the initial state threaded through the first `i` names), and the state afterwards is
the one threaded through the names invoked. The number of invocations is the length of
`nams` when the callback never answers `false`, and otherwise the index of the first name
on which it answers `false` plus one; nothing is invoked after an answer `false`. For a
callback that answers by a function `f` of the name alone the number is the index of the
first name with `f name = false` plus one, or the length of `nams`. -/
theorem readdir_enumeration {σ : Type} (env : Native) (self : Ptfs) (path : String)
    (fill : σ → String → Option fuse.Stat_t → Int → Bool × σ) (s : σ) (ofst : Int) (fh : Nat)
    (file : File) (nams : List String)
    (hopen : env.OsOpen path = Except.ok file)
    (hnames : env.Readdirnames file 0 = (nams, none)) :
    (Ptfs.Readdir env self path fill s ofst fh).ret = Except.ok 0 ∧
    (Ptfs.Readdir env self path fill s ofst fh).calls
      = [Call.OsOpen path, Call.Readdirnames file 0, Call.FileClose file] ∧
    (Ptfs.Readdir env self path fill s ofst fh).fills.length ≤ nams.length ∧
    (Ptfs.Readdir env self path fill s ofst fh).fills.map (fun c => c.name)
      = nams.take (Ptfs.Readdir env self path fill s ofst fh).fills.length ∧
    (∀ c ∈ (Ptfs.Readdir env self path fill s ofst fh).fills, c.stat = none ∧ c.ofst = 0) ∧
    (∀ (i : Nat) (c : FillCall),
      (Ptfs.Readdir env self path fill s ofst fh).fills[i]? = some c →
      ∃ name, nams[i]? = some name ∧
        c = { name := name, stat := none, ofst := 0,
              more := (fill ((nams.take i).foldl (fun st nm => (fill st nm none 0).2) s)
                name none 0).1 }) ∧
    (Ptfs.Readdir env self path fill s ofst fh).state
      = (nams.take (Ptfs.Readdir env self path fill s ofst fh).fills.length).foldl
          (fun st nm => (fill st nm none 0).2) s ∧
    ((∀ (i : Nat) (name : String), nams[i]? = some name →
        (fill ((nams.take i).foldl (fun st nm => (fill st nm none 0).2) s) name none 0).1
          = true) →
      (Ptfs.Readdir env self path fill s ofst fh).fills.length = nams.length) ∧
    (∀ (i : Nat) (name : String), nams[i]? = some name →
      (fill ((nams.take i).foldl (fun st nm => (fill st nm none 0).2) s) name none 0).1
        = false →
      (∀ (j : Nat) (nm : String), j < i → nams[j]? = some nm →
        (fill ((nams.take j).foldl (fun st nm => (fill st nm none 0).2) s) nm none 0).1
          = true) →
      (Ptfs.Readdir env self path fill s ofst fh).fills.length = i + 1) ∧
    ((∀ c ∈ (Ptfs.Readdir env self path fill s ofst fh).fills, c.more = true) →
      (Ptfs.Readdir env self path fill s ofst fh).fills.length = nams.length) ∧
    (∀ (i : Nat) (c : FillCall),
      (Ptfs.Readdir env self path fill s ofst fh).fills[i]? = some c → c.more = false →
      (Ptfs.Readdir env self path fill s ofst fh).fills.length = i + 1) ∧
    (∀ f : String → Bool, fill = (fun st name _ _ => (f name, st)) →
      (Ptfs.Readdir env self path fill s ofst fh).fills.length
        = min (nams.findIdx (fun name => !f name) + 1) nams.length) := by
  have hrun : Ptfs.Readdir env self path fill s ofst fh
      = { calls := [Call.OsOpen path, Call.Readdirnames file 0, Call.FileClose file],
          fills := (fillLoop fill nams s).1, state := (fillLoop fill nams s).2,
          ret := Except.ok 0 } := by
    simp only [Ptfs.Readdir, hopen, hnames]
  rw [hrun]
  refine ⟨rfl, rfl, fillLoop_length_le fill nams s, fillLoop_names fill nams s,
    fillLoop_args fill nams s, fillLoop_get fill nams s, fillLoop_state fill nams s,
    fillLoop_never_false fill nams s, fillLoop_first_false fill nams s,
    fillLoop_all_true fill nams s, ?_, ?_⟩
  · intro i c hget hfalse
    exact fillLoop_stops fill nams s i c hget hfalse
  · intro f hf
    subst hf
    exact fillLoop_pure f nams s

/-- C4 at concrete inputs: over the entries a, b, c a callback that always answers `true` is
invoked exactly 3 times, one that answers `false` on b exactly twice, and a callback with
room for two entries (its state counts the entries taken, it answers `false` on taking the
second) exactly twice, leaving the state 2; the result is 0. -/
theorem readdir_enumeration_witness :
    (Ptfs.Readdir (workingNative 3 ["a", "b", "c"]) { root := "" } "/d"
      (fun (st : Unit) _ _ _ => (true, st)) () 0 3).fills.length = 3 ∧
    (Ptfs.Readdir (workingNative 3 ["a", "b", "c"]) { root := "" } "/d"
      (fun (st : Unit) name _ _ => (name != "b", st)) () 0 3).fills.length = 2 ∧
    (Ptfs.Readdir (workingNative 3 ["a", "b", "c"]) { root := "" } "/d"
      (fun (st : Unit) name _ _ => (name != "b", st)) () 0 3).fills.map (fun c => c.name)
      = ["a", "b"] ∧
    (Ptfs.Readdir (workingNative 3 ["a", "b", "c"]) { root := "" } "/d"
      (fun (st : Unit) name _ _ => (name != "b", st)) () 0 3).ret = Except.ok 0 ∧
    (Ptfs.Readdir (workingNative 3 ["a", "b", "c"]) { root := "" } "/d"
      (fun (st : Nat) _ _ _ => (decide (st + 1 < 2), st + 1)) 0 0 3).fills.length = 2 ∧
    (Ptfs.Readdir (workingNative 3 ["a", "b", "c"]) { root := "" } "/d"
      (fun (st : Nat) _ _ _ => (decide (st + 1 < 2), st + 1)) 0 0 3).state = 2 :=
  have h1 := readdir_enumeration (workingNative 3 ["a", "b", "c"]) { root := "" } "/d"
    (fun (st : Unit) _ _ _ => (true, st)) () 0 3 { name := "/d", fd := 3 } ["a", "b", "c"]
    rfl rfl
  have h2 := readdir_enumeration (workingNative 3 ["a", "b", "c"]) { root := "" } "/d"
    (fun (st : Unit) name _ _ => (name != "b", st)) () 0 3 { name := "/d", fd := 3 }
    ["a", "b", "c"] rfl rfl
  have h3 := readdir_enumeration (workingNative 3 ["a", "b", "c"]) { root := "" } "/d"
    (fun (st : Nat) _ _ _ => (decide (st + 1 < 2), st + 1)) 0 0 3 { name := "/d", fd := 3 }
    ["a", "b", "c"] rfl rfl
  have h3len := h3.2.2.2.2.2.2.2.2.1 1 "b" (by decide) (by decide)
    (fun j nm hj _ => by
      have hj0 : j = 0 := by omega
      subst hj0
      rfl)
  ⟨(h1.2.2.2.2.2.2.2.2.2.2.2 (fun _ => true) rfl).trans (by decide),
   (h2.2.2.2.2.2.2.2.2.2.2.2 (fun name => name != "b") rfl).trans (by decide),
   by decide, h2.1, h3len,
   h3.2.2.2.2.2.2.1.trans (by rw [h3len]; decide)⟩

/-! ## Result codes -/

theorem errno_sign (native : Option Nat) :
    (native = none → errno (asError native) = Except.ok 0) ∧
    (∀ e : Nat, native = some e → 0 < e → e ≤ 2 ^ 63 →
      ∃ v : Int, errno (asError native) = Except.ok v ∧ v < 0 ∧ v = -(e : Int)) := by
  refine ⟨?_, ?_⟩
  · intro h
    rw [h]
    rfl
  · intro e h hpos hle
    rw [h]
    exact ⟨-(e : Int), errno_of_le e hle, by omega, rfl⟩

theorem map_fst_pair {β : Type} (r : Except Panic Int) (b : β) :
    (r.map fun errc => (errc, b)).map Prod.fst = r := by
  cases r <;> rfl

/-- C8 (amended). Result-code invariant: for each of the operations that return only a
result code (`Statfs`, `Mknod`, `Mkdir`, `Unlink`, `Rmdir`, `Link`, `Symlink`, `Rename`,
`Chmod`, `Chown`, `Utimens` on at least two timestamps, `Access`, `Getattr`, `Truncate`,
`Release`, `Fsync`, `Releasedir`), paired here with the answer `native` of its native call,
the operation returns, and its result code `ret` is 0 when the native call succeeded and the
strictly negative integer `-e` when it failed with a code `e`, `0 < e ≤ 2 ^ 63`; a non-nil
error of the numeric type with a 64-bit code `e` is translated by `errno` to a strictly
negative value exactly when `0 < e ≤ 2 ^ 63`. -/
theorem result_code_invariant (env : Native) (self : Ptfs) (path path2 : String)
    (statfs : fuse.Statfs_t) (stat : fuse.Stat_t) (mode dev uid gid mask fh : Nat) (size : Int)
    (datasync : Bool) (t0 t1 : fuse.Timespec) (rest : List fuse.Timespec)
    (native : Option Nat) (ret : Except Panic Int)
    (hop : (native, ret) ∈
      [((env.Statfs (filepath.Join self.root path)).2,
          (Ptfs.Statfs env self path statfs).ret.map Prod.fst),
       (env.Mknod (filepath.Join self.root path) mode (toInt64 dev),
          (Ptfs.Mknod env self path mode dev).ret),
       (env.Mkdir (filepath.Join self.root path) mode, (Ptfs.Mkdir env self path mode).ret),
       (env.Unlink (filepath.Join self.root path), (Ptfs.Unlink env self path).ret),
       (env.Rmdir (filepath.Join self.root path), (Ptfs.Rmdir env self path).ret),
       (env.Link (filepath.Join self.root path) (filepath.Join self.root path2),
          (Ptfs.Link env self path path2).ret),
       (env.Symlink (filepath.Join self.root path) (filepath.Join self.root path2),
          (Ptfs.Symlink env self path path2).ret),
       (env.Rename (filepath.Join self.root path) (filepath.Join self.root path2),
          (Ptfs.Rename env self path path2).ret),
       (env.Chmod (filepath.Join self.root path) mode, (Ptfs.Chmod env self path mode).ret),
       (env.Chown (filepath.Join self.root path) ((uid % 2 ^ 32 : Nat) : Int)
            ((gid % 2 ^ 32 : Nat) : Int),
          (Ptfs.Chown env self path uid gid).ret),
       (env.UtimesNano (filepath.Join self.root path)
            [{ Sec := t0.Sec, Nsec := t0.Nsec }, { Sec := t1.Sec, Nsec := t1.Nsec }],
          (Ptfs.Utimens env self path (t0 :: t1 :: rest)).ret),
       (env.Access (filepath.Join self.root path) mask, (Ptfs.Access env self path mask).ret),
       (if sentinel = fh then (env.Stat (filepath.Join self.root path)).2
          else (env.Fstat (toInt64 fh)).2,
          (Ptfs.Getattr env self path stat fh).ret.map Prod.fst),
       (if sentinel = fh then env.Truncate (filepath.Join self.root path) size
          else env.Ftruncate (toInt64 fh) size,
          (Ptfs.Truncate env self path size fh).ret),
       (env.Close (toInt64 fh), (Ptfs.Release env self path fh).ret),
       (env.Fsync (toInt64 fh), (Ptfs.Fsync env self path datasync fh).ret),
       (env.Close (toInt64 fh), (Ptfs.Releasedir env self path fh).ret)]) :
    (native = none → ret = Except.ok 0) ∧
    (∀ e : Nat, native = some e → 0 < e → e ≤ 2 ^ 63 →
      ∃ v : Int, ret = Except.ok v ∧ v < 0 ∧ v = -(e : Int)) ∧
    (∀ e : Nat, e < 2 ^ 64 →
      ((∃ v : Int, errno (some (GoError.Errno e)) = Except.ok v ∧ v < 0)
        ↔ (0 < e ∧ e ≤ 2 ^ 63))) := by
  have hlast : ∀ e : Nat, e < 2 ^ 64 →
      ((∃ v : Int, errno (some (GoError.Errno e)) = Except.ok v ∧ v < 0)
        ↔ (0 < e ∧ e ≤ 2 ^ 63)) := by
    intro e he
    rw [errno_Errno]
    constructor
    · rintro ⟨v, hv, hneg⟩
      rw [← Except.ok.inj hv] at hneg
      exact (wrapInt_neg_toInt64_neg_iff e he).mp hneg
    · intro h
      exact ⟨_, rfl, (wrapInt_neg_toInt64_neg_iff e he).mpr h⟩
  have hret : ret = errno (asError native) := by
    simp only [List.mem_cons, Prod.mk.injEq, List.mem_singleton, List.not_mem_nil,
      or_false] at hop
    rcases hop with h | h | h | h | h | h | h | h | h | h | h | h | h | h | h | h | h
    · rw [h.1, h.2]
      exact map_fst_pair _ _
    · rw [h.1, h.2]; rfl
    · rw [h.1, h.2]; rfl
    · rw [h.1, h.2]; rfl
    · rw [h.1, h.2]; rfl
    · rw [h.1, h.2]; rfl
    · rw [h.1, h.2]; rfl
    · rw [h.1, h.2]; rfl
    · rw [h.1, h.2]; rfl
    · rw [h.1, h.2]; rfl
    · rw [h.1, h.2]
      simp [Ptfs.Utimens]
    · rw [h.1, h.2]; rfl
    · rw [h.1, h.2]
      by_cases hs : sentinel = fh
      · simp only [Ptfs.Getattr, if_pos hs]
        exact map_fst_pair _ _
      · simp only [Ptfs.Getattr, if_neg hs]
        exact map_fst_pair _ _
    · rw [h.1, h.2]
      by_cases hs : sentinel = fh
      · simp only [Ptfs.Truncate, if_pos hs]
      · simp only [Ptfs.Truncate, if_neg hs]
    · rw [h.1, h.2]; rfl
    · rw [h.1, h.2]; rfl
    · rw [h.1, h.2]; rfl
  rw [hret]
  exact ⟨(errno_sign native).1, (errno_sign native).2, hlast⟩

/-- C8 at concrete inputs: `Rmdir` failing with the code 39 (directory not empty) returns
-39; `Statfs` succeeding returns 0. -/
theorem result_code_invariant_witness :
    (Ptfs.Rmdir (failingNative 39) { root := "/srv/data" } "/d").ret = Except.ok (-39) ∧
    ((Ptfs.Statfs (workingNative 3 []) { root := "/srv/data" } "/" zeroStatfsFuse).ret.map
      Prod.fst) = Except.ok 0 :=
  ⟨by
    obtain ⟨v, hv, _, hv2⟩ :=
      (result_code_invariant (failingNative 39) { root := "/srv/data" } "/d" "/e"
        zeroStatfsFuse zeroFuseStat 0 0 0 0 0 3 0 false { Sec := 0, Nsec := 0 }
        { Sec := 0, Nsec := 0 } [] (some 39)
        (Ptfs.Rmdir (failingNative 39) { root := "/srv/data" } "/d").ret
        (List.Mem.tail _ (List.Mem.tail _ (List.Mem.tail _ (List.Mem.tail _
          (List.Mem.head _)))))).2.1 39 rfl (by omega) (by omega)
    rw [hv, hv2]
    rfl,
   (result_code_invariant (workingNative 3 []) { root := "/srv/data" } "/" "/e"
      zeroStatfsFuse zeroFuseStat 0 0 0 0 0 3 0 false { Sec := 0, Nsec := 0 }
      { Sec := 0, Nsec := 0 } [] none
      ((Ptfs.Statfs (workingNative 3 []) { root := "/srv/data" } "/" zeroStatfsFuse).ret.map
        Prod.fst)
      (List.Mem.head _)).1 rfl⟩

/-- C8 as stated fails: the non-nil error `syscall.Errno(0)` is translated to 0 and the
non-nil error with the code `2 ^ 64 - 1` to the positive value 1, so a `Rmdir` whose native
call answers with one of them returns 0, respectively 1, and not a strictly negative
integer. -/
theorem result_code_invariant_counterexample :
    errno (some (GoError.Errno 0)) = Except.ok 0 ∧
    errno (some (GoError.Errno (2 ^ 64 - 1))) = Except.ok 1 ∧
    (Ptfs.Rmdir (failingNative 0) { root := "/srv/data" } "/d").ret = Except.ok 0 ∧
    (Ptfs.Rmdir (failingNative (2 ^ 64 - 1)) { root := "/srv/data" } "/d").ret = Except.ok 1 ∧
    ¬ (∀ e : Nat, e < 2 ^ 64 →
        ∃ v : Int, errno (some (GoError.Errno e)) = Except.ok v ∧ v < 0) := by
  have h1 : errno (some (GoError.Errno (2 ^ 64 - 1))) = Except.ok 1 := by
    rw [errno_Errno]
    unfold wrapInt toInt64 toUint64
    norm_num
  refine ⟨rfl, h1, rfl, h1, ?_⟩
  intro h
  obtain ⟨v, hv, hneg⟩ := h 0 (by omega)
  have h0 : errno (some (GoError.Errno 0)) = Except.ok 0 := rfl
  rw [h0] at hv
  have := Except.ok.inj hv
  omega

/-! ## Readdir: the path it opens and the errors it translates -/

/-- C2, the code at a failing input: under the root `/srv/data`, `Readdir` of `/docs` opens
`/docs`, the path as received, while `join(root, path)` is `/srv/data/docs`, the path that
`Opendir` and `Getattr` use; for every root and path the first native call of `Readdir` is
`os.Open` on the path as received. -/
theorem readdir_opens_unresolved_path :
    (Ptfs.Readdir (workingNative 3 ["a"]) { root := "/srv/data" } "/docs"
        (fun (st : Unit) _ _ _ => (true, st)) () 0 3).calls
      = [Call.OsOpen "/docs", Call.Readdirnames { name := "/docs", fd := 3 } 0,
          Call.FileClose { name := "/docs", fd := 3 }] ∧
    filepath.Join "/srv/data" "/docs" = "/srv/data/docs" ∧
    (Ptfs.Opendir (workingNative 3 ["a"]) { root := "/srv/data" } "/docs").calls
      = [Call.Open "/srv/data/docs" 65536 0] ∧
    (Ptfs.Getattr (workingNative 3 ["a"]) { root := "/srv/data" } "/docs" zeroFuseStat
        sentinel).calls = [Call.Stat "/srv/data/docs"] ∧
    (∀ (σ : Type) (env : Native) (self : Ptfs) (path : String)
        (fill : σ → String → Option fuse.Stat_t → Int → Bool × σ) (s : σ) (ofst : Int) (fh : Nat),
      (Ptfs.Readdir env self path fill s ofst fh).calls.head? = some (Call.OsOpen path)) := by
  refine ⟨by decide, by decide, by decide, by decide, ?_⟩
  intro σ env self path fill s ofst fh
  unfold Ptfs.Readdir
  cases env.OsOpen path with
  | error e => rfl
  | ok file =>
    cases h : (env.Readdirnames file 0).2 with
    | none => simp only [h]; rfl
    | some e => simp only [h]; rfl

/-- C3, the code at failing inputs: `errno` applied to the `*os.PathError` that `os.Open`
produces panics on its type assertion; a `Readdir` whose directory cannot be opened, and
one whose enumeration fails, end in that panic instead of returning a result code; the
callback is invoked zero times; in general `Readdir` panics whenever the error of `os.Open`
is not itself a `syscall.Errno`. -/
theorem readdir_failure_panics :
    errno (some (GoError.PathError "open" "/nope" (GoError.Errno 2)))
      = Except.error Panic.typeAssertion ∧
    (Ptfs.Readdir (failingNative syscall.ENOENT) { root := "/srv/data" } "/nope"
        (fun (st : Unit) _ _ _ => (true, st)) () 0 sentinel).ret
      = Except.error Panic.typeAssertion ∧
    (Ptfs.Readdir (failingNative syscall.ENOENT) { root := "/srv/data" } "/nope"
        (fun (st : Unit) _ _ _ => (true, st)) () 0 sentinel).fills = [] ∧
    (Ptfs.Readdir
        { workingNative 3 ["a"] with
          Readdirnames := fun _ _ =>
            ([], some (GoError.SyscallError "readdirent" (GoError.Errno 5))) }
        { root := "/srv/data" } "/d" (fun (st : Unit) _ _ _ => (true, st)) () 0 3).ret
      = Except.error Panic.typeAssertion ∧
    (Ptfs.Readdir
        { workingNative 3 ["a"] with
          Readdirnames := fun _ _ =>
            ([], some (GoError.SyscallError "readdirent" (GoError.Errno 5))) }
        { root := "/srv/data" } "/d" (fun (st : Unit) _ _ _ => (true, st)) () 0 3).fills = [] ∧
    (∀ (σ : Type) (env : Native) (self : Ptfs) (path : String)
        (fill : σ → String → Option fuse.Stat_t → Int → Bool × σ) (s : σ) (ofst : Int) (fh : Nat)
        (e : GoError),
      env.OsOpen path = Except.error e → (∀ code : Nat, e ≠ GoError.Errno code) →
      (Ptfs.Readdir env self path fill s ofst fh).ret = Except.error Panic.typeAssertion ∧
      (Ptfs.Readdir env self path fill s ofst fh).fills = []) := by
  refine ⟨rfl, rfl, rfl, rfl, rfl, ?_⟩
  intro σ env self path fill s ofst fh e hopen hne
  simp only [Ptfs.Readdir, hopen, and_true]
  cases e with
  | Errno code => exact absurd rfl (hne code)
  | PathError op p err => rfl
  | SyscallError call err => rfl

end Passthrough
